import Mathlib

/-
Verification of the ray-tracing renderer core (camera geometry, ray-primitive
intersection, shading, grayscale filter, pixel dispatch).

Modelling conventions:
* `f32` values are modelled as exact rationals (`F := ℚ`).  Floating-point
  rounding is out of scope; the claims under study are about the algorithms.
* The partial operations of `f32` that have no rational counterpart
  (`sqrt`, `cos`, `sin`, `tan`, `asin`, `atan2`, `powf`) are threaded through
  every definition as an explicit oracle record `MathOps`.  Theorems that
  depend on properties of a square root state them as hypotheses at the
  values actually used, and witnesses instantiate the oracle with a concrete
  table that is exact there.
* The literal constants `0.0001` and `0.001` of the source are modelled by
  the exact decimals `1/10000` and `1/1000`; `f32::consts::PI` and
  `f32::MAX` are modelled by their exact values.
* `u8` / `u32` / `usize` values are modelled as `ℕ`; an `as usize` cast of a
  non-negative float is `Nat.floor`, matching Rust's saturating truncation.
-/

abbrev F : Type := ℚ

/-- `src/vector.rs`: a 3-component float vector. -/
@[ext]
structure Vec3 where
  x : F
  y : F
  z : F
deriving DecidableEq, Repr, Inhabited

/-- `vec3` constructor helper from `src/vector.rs`. -/
def vec3 (x y z : F) : Vec3 := ⟨x, y, z⟩

instance : Add Vec3 where
  add a b := vec3 (a.x + b.x) (a.y + b.y) (a.z + b.z)

instance : Sub Vec3 where
  sub a b := vec3 (a.x - b.x) (a.y - b.y) (a.z - b.z)

/-- `impl Mul<f32> for Vec3`: scalar multiplication. -/
instance : HMul Vec3 F Vec3 where
  hMul v r := vec3 (r * v.x) (r * v.y) (r * v.z)

/-- `impl Mul for Vec3`: the dot product. -/
instance : HMul Vec3 Vec3 F where
  hMul a b := a.x * b.x + a.y * b.y + a.z * b.z

/-- Oracle record for the `f32` operations that have no exact rational
counterpart.  Every renderer definition takes one of these; theorems add
hypotheses about the oracle only at the values the computation feeds it. -/
structure MathOps where
  sq : F → F
  cos : F → F
  sin : F → F
  tan : F → F
  asin : F → F
  atan2 : F → F → F
  powf : F → F → F

/-- `Vec3::len`: `sqrt(x*x + y*y + z*z)`. -/
def Vec3.len (m : MathOps) (v : Vec3) : F :=
  m.sq (v.x * v.x + v.y * v.y + v.z * v.z)

/-- `Vec3::normalized`: `*self * (1.0 / self.len())`. -/
def Vec3.normalized (m : MathOps) (v : Vec3) : Vec3 :=
  v * (1 / v.len m)

/-- `Vec3::cross_product`. -/
def Vec3.cross_product (a b : Vec3) : Vec3 :=
  vec3 (a.y * b.z - a.z * b.y) (a.z * b.x - a.x * b.z) (a.x * b.y - a.y * b.x)

/-- `Vec3::set_length`: normalize, then scale. -/
def Vec3.set_length (m : MathOps) (v : Vec3) (length : F) : Vec3 :=
  v.normalized m * length

/-- `src/util.rs`: `RealRange`, the allowed-range policy type. -/
inductive RealRange where
  | All : RealRange
  | Closed (a b : F) : RealRange
  | Open (a b : F) : RealRange
  | HalfOpenR (a b : F) : RealRange
  | HalfOpenL (a b : F) : RealRange
  | SmallerThan (a : F) : RealRange
  | SmallerEqual (a : F) : RealRange
  | LargerThan (a : F) : RealRange
  | LargerEqual (a : F) : RealRange
deriving DecidableEq, Repr

/-- `RealRange::contains`. -/
def RealRange.contains : RealRange → F → Bool
  | .All, _ => true
  | .Closed a b, x => decide (a ≤ x ∧ x ≤ b)
  | .Open a b, x => decide (a < x ∧ x < b)
  | .HalfOpenR a b, x => decide (a ≤ x ∧ x < b)
  | .HalfOpenL a b, x => decide (a < x ∧ x ≤ b)
  | .SmallerThan a, x => decide (x < a)
  | .SmallerEqual a, x => decide (x ≤ a)
  | .LargerThan a, x => decide (a < x)
  | .LargerEqual a, x => decide (a ≤ x)

/-- Exact value of `f32::consts::PI` (the nearest `f32` to π). -/
def PI : F := 13176795 / 4194304

/-- Exact value of `f32::MAX`. -/
def F32_MAX : F := 2 ^ 128 - 2 ^ 104

/-- The `0.001` threshold of `renderer.rs` (modelled as the exact decimal). -/
def PERPENDICULARITY_EPSILON : F := 1 / 1000

/-- The `0.0001` shadow-ray threshold of `is_in_shadow` (exact decimal). -/
def SHADOW_EPSILON : F := 1 / 10000

/-- `rgb::RGBA8`: four `u8` channels, modelled as naturals. -/
structure RGBA8 where
  r : ℕ
  g : ℕ
  b : ℕ
  a : ℕ
deriving DecidableEq, Repr, Inhabited

/-- `src/objects.rs`: `Material`. -/
structure Material where
  ambient_constant : RGBA8
  diffuse_constant : F
  specular_constant : F
  shine : F
deriving DecidableEq, Repr, Inhabited

/-- `src/objects.rs`: `Ball`. -/
structure Ball where
  pos : Vec3
  rad : F
  material : Material
deriving DecidableEq, Repr, Inhabited

/-- `src/objects.rs`: `LightIntensity`. -/
structure LightIntensity where
  r : F
  g : F
  b : F
deriving DecidableEq, Repr, Inhabited

/-- `src/objects.rs`: `Light`. -/
structure Light where
  pos : Vec3
  diffuse_intensity : LightIntensity
  specular_intensity : LightIntensity
deriving DecidableEq, Repr, Inhabited

/-- `TriangleFace`: a triangle as three resolved vertices. -/
abbrev TriangleFace : Type := Vec3 × Vec3 × Vec3

/-- `get_triangle_normal` from `src/objects.rs`. -/
def get_triangle_normal (t : TriangleFace) : Vec3 :=
  let v0v1 := t.2.1 - t.1
  let v0v2 := t.2.2 - t.1
  v0v1.cross_product v0v2

/-- `src/objects.rs`: `VertexObject`, an indexed triangle mesh. -/
structure VertexObject where
  pos : Vec3
  vertices : List Vec3
  faces : List (ℕ × ℕ × ℕ)
  material : Material
deriving DecidableEq, Repr, Inhabited

/-- `VertexObject::iter_faces`: resolve each face's vertex indices.  The
source unwraps the lookups (panicking on an out-of-range index, which §3 of
the spec rules a fatal configuration error); the model uses a default. -/
def VertexObject.iter_faces (vo : VertexObject) : List TriangleFace :=
  vo.faces.map fun f =>
    (vo.vertices.getD f.1 default, vo.vertices.getD f.2.1 default,
      vo.vertices.getD f.2.2 default)

/-- `src/world.rs`: the scene. -/
structure World where
  vertex_objects : List VertexObject
  balls : List Ball
  lights : List Light
  color : RGBA8
deriving DecidableEq, Repr, Inhabited

/-- `Renderer::find_ray_ball_intersection` from `src/renderer.rs`. -/
def find_ray_ball_intersection (m : MathOps) (ball : Ball) (origin direction : Vec3)
    (t_allowed_range : RealRange) : Option F :=
  let center_adj := origin - ball.pos
  let a : F := (direction.len m) * (direction.len m)
  let b : F := (center_adj * direction) * 2
  let c : F := (center_adj.len m) * (center_adj.len m) - ball.rad * ball.rad
  let d : F := b * b - 4 * a * c
  if d < 0 then
    none
  else if d = 0 then
    let t := -b / 2 * a
    if t_allowed_range.contains t then some t else none
  else
    let t1 := (-b + m.sq d) / (2 * a)
    let t2 := (-b - m.sq d) / (2 * a)
    if t_allowed_range.contains t1 || t_allowed_range.contains t2 then
      some (min t1 t2)
    else
      none

/-- `Renderer::find_ray_triangle_intersection` from `src/renderer.rs`. -/
def find_ray_triangle_intersection (m : MathOps) (triangle_pos : Vec3)
    (triangle : TriangleFace) (origin direction : Vec3)
    (t_allowed_range : RealRange) : Option F :=
  let direction := direction.normalized m
  let v0 := triangle.1 + triangle_pos
  let v1 := triangle.2.1 + triangle_pos
  let v2 := triangle.2.2 + triangle_pos
  let n := get_triangle_normal (v0, v1, v2)
  if |n * direction| < PERPENDICULARITY_EPSILON then
    none
  else
    let d : F := (n * v0) * (-1 : F)
    let t : F := -((n * origin : F) + d) / (n * direction : F)
    if ¬ (t_allowed_range.contains t) then
      none
    else
      let p := origin + direction * t
      let i0 := n.cross_product (v1 - v0)
      if (i0 * (p - v0) : F) < 0 then
        none
      else
        let i1 := n.cross_product (v2 - v1)
        if (i1 * (p - v1) : F) < 0 then
          none
        else
          let i2 := n.cross_product (v0 - v2)
          if (i2 * (p - v2) : F) < 0 then
            none
          else
            some t

/-- `Renderer::is_in_shadow` from `src/renderer.rs`.  The early-returning
loops over the scene's balls and triangle faces are `List.any`. -/
def is_in_shadow (m : MathOps) (world : World) (origin direction : Vec3) : Bool :=
  let direction := direction.normalized m
  let t_allowed_range := RealRange.LargerThan SHADOW_EPSILON
  (world.balls.any fun ball =>
    (find_ray_ball_intersection m ball origin direction t_allowed_range).isSome)
  || (world.vertex_objects.any fun vo =>
    vo.iter_faces.any fun triangle =>
      (find_ray_triangle_intersection m vo.pos triangle origin direction
        t_allowed_range).isSome)

/-- `src/util.rs`: `Resolution` (two `u32` fields). -/
structure Resolution where
  w : ℕ
  h : ℕ
deriving DecidableEq, Repr, Inhabited

/-- `src/camera.rs`: `ImagePlane`, the four world-space corners. -/
@[ext]
structure ImagePlane where
  top_left : Vec3
  top_right : Vec3
  bottom_right : Vec3
  bottom_left : Vec3
deriving DecidableEq, Repr, Inhabited

/-- `src/camera.rs`: `Camera`. -/
structure Camera where
  pos : Vec3
  field_of_view_horizontal : F
  view_direction : Vec3
  image_plane : ImagePlane
  resolution : Resolution
deriving DecidableEq, Repr, Inhabited

/-- `src/errors.rs`: `CameraSettingError`. -/
inductive CameraSettingError where
  | InvalidFOV (value : F) : CameraSettingError
deriving DecidableEq, Repr

/-- `Vec3::rotate_y_rad` (pure version of the in-place rotation). -/
def Vec3.rotate_y_rad (m : MathOps) (v : Vec3) (angle : F) : Vec3 :=
  let current_angle := m.atan2 v.z v.x
  let new_angle := current_angle + angle
  let len_xz := m.sq (v.x * v.x + v.z * v.z)
  { v with x := m.cos new_angle * len_xz, z := m.sin new_angle * len_xz }

/-- `Vec3::rotate_z_rad` (pure version of the in-place rotation). -/
def Vec3.rotate_z_rad (m : MathOps) (v : Vec3) (angle : F) : Vec3 :=
  let current_angle := m.atan2 v.y v.x
  let new_angle := current_angle + angle
  let len_xy := m.sq (v.x * v.x + v.y * v.y)
  { v with x := m.cos new_angle * len_xy, y := m.sin new_angle * len_xy }

/-- `Camera::get_image_plane` from `src/camera.rs`.  The aspect ratio
`self.get_aspect_ratio()` is inlined as `w / h`. -/
def Camera.get_image_plane (m : MathOps) (c : Camera) : ImagePlane :=
  let rotation_angle := c.field_of_view_horizontal / 2
  let len := |1 / m.cos rotation_angle|
  let right0 := vec3 (m.cos rotation_angle) 0 (m.sin rotation_angle) * len
  let left0 := vec3 (m.cos rotation_angle) 0 (-(m.sin rotation_angle)) * len
  let view_angle_y := m.asin c.view_direction.y
  let right1 := right0.rotate_z_rad m view_angle_y
  let left1 := left0.rotate_z_rad m view_angle_y
  let view_angle_xz := m.atan2 c.view_direction.z c.view_direction.x
  let right := right1.rotate_y_rad m view_angle_xz
  let left := left1.rotate_y_rad m view_angle_xz
  let up0 := right.cross_product c.view_direction
  let size_up := m.tan rotation_angle / ((c.resolution.w : F) / (c.resolution.h : F))
  let up := up0.set_length m size_up
  { top_left := c.pos + (left + up)
    top_right := c.pos + (right + up)
    bottom_right := c.pos + (right - up)
    bottom_left := c.pos + (left - up) }

/-- `Camera::new` from `src/camera.rs` (field of view given in degrees). -/
def Camera.new (m : MathOps) (pos view_direction : Vec3)
    (field_of_view_horizontal : F) (resolution : Resolution) :
    Except CameraSettingError Camera :=
  if 180 ≤ field_of_view_horizontal ∨ field_of_view_horizontal ≤ 0 then
    .error (.InvalidFOV field_of_view_horizontal)
  else
    let field_of_view := field_of_view_horizontal * (PI / 180)
    let view_direction := view_direction.normalized m
    let camera : Camera :=
      { pos := pos
        field_of_view_horizontal := field_of_view
        view_direction := view_direction
        image_plane := default
        resolution := resolution }
    .ok { camera with image_plane := camera.get_image_plane m }

/-- `Camera::translate`: shift the position and all four stored corners. -/
def Camera.translate (c : Camera) (v : Vec3) : Camera :=
  { c with
    pos := c.pos + v
    image_plane :=
      { top_left := c.image_plane.top_left + v
        top_right := c.image_plane.top_right + v
        bottom_right := c.image_plane.bottom_right + v
        bottom_left := c.image_plane.bottom_left + v } }

/-- `Camera::set_view_direction`: store the normalized direction and
re-derive the stored image plane. -/
def Camera.set_view_direction (m : MathOps) (c : Camera) (direction : Vec3) : Camera :=
  let direction_normal := direction.normalized m
  let c1 := { c with view_direction := direction_normal }
  { c1 with image_plane := c1.get_image_plane m }

/-- `Camera::look_at`. -/
def Camera.look_at (m : MathOps) (c : Camera) (at_ : Vec3) : Camera :=
  c.set_view_direction m (at_ - c.pos)

/-- `Camera::set_field_of_view_horizontal` (radians).  The Rust method takes
`&mut self` and returns `Result<(), _>`; the model returns the result paired
with the final camera state (unchanged on error). -/
def Camera.set_field_of_view_horizontal (m : MathOps) (c : Camera) (fov : F) :
    Except CameraSettingError Unit × Camera :=
  if PI ≤ fov ∨ fov ≤ 0 then
    (.error (.InvalidFOV fov), c)
  else
    let c1 := { c with field_of_view_horizontal := fov }
    (.ok (), { c1 with image_plane := c1.get_image_plane m })

/-- `Camera::set_field_of_view_horizontal_deg`: convert to radians and
delegate. -/
def Camera.set_field_of_view_horizontal_deg (m : MathOps) (c : Camera) (fov : F) :
    Except CameraSettingError Unit × Camera :=
  c.set_field_of_view_horizontal m (fov * (PI / 180))

/-- One mutator call on a camera, for stating the image-plane invariant over
arbitrary call sequences. -/
inductive CameraOp where
  | translate (v : Vec3) : CameraOp
  | look_at (at_ : Vec3) : CameraOp
  | set_view_direction (d : Vec3) : CameraOp
  | set_fov (f : F) : CameraOp
  | set_fov_deg (f : F) : CameraOp
deriving DecidableEq, Repr

/-- Apply one mutator; a rejected FOV change leaves the camera as the Rust
`&mut self` method does (unchanged). -/
def applyCameraOp (m : MathOps) (c : Camera) : CameraOp → Camera
  | .translate v => c.translate v
  | .look_at p => c.look_at m p
  | .set_view_direction d => c.set_view_direction m d
  | .set_fov f => (c.set_field_of_view_horizontal m f).2
  | .set_fov_deg f => (c.set_field_of_view_horizontal_deg m f).2

/-- The §3 invariant: the stored image plane is exactly what
`get_image_plane` would derive from the camera's other fields. -/
def Camera.planeConsistent (m : MathOps) (c : Camera) : Prop :=
  c.image_plane = c.get_image_plane m

/-- `Renderer::calculate_pixel_ray` from `src/renderer.rs`. -/
def calculate_pixel_ray (camera : Camera) (i : ℕ) : Vec3 :=
  let alpha : F := ((i % camera.resolution.w : ℕ) : F) / (camera.resolution.w : F)
  let beta : F := ((i / camera.resolution.w : ℕ) : F) / (camera.resolution.h : F)
  let hi : Vec3 := camera.image_plane.top_left * (1 - alpha)
    + camera.image_plane.top_right * alpha
  let lo : Vec3 := camera.image_plane.bottom_left * (1 - alpha)
    + camera.image_plane.bottom_right * alpha
  let pixel_vec : Vec3 := hi * (1 - beta) + lo * beta
  pixel_vec - camera.pos

/-- `Renderer::apply_filters` from `src/renderer.rs` (the `u8` divisions are
exact `ℕ` divisions since every channel fits in a byte). -/
def apply_filters (grayscale : Bool) (rgba : RGBA8) : RGBA8 :=
  if grayscale then
    let avg := rgba.r / 3 + rgba.g / 3 + rgba.b / 3
    { rgba with r := avg, g := avg, b := avg }
  else
    rgba

/-- Loop body of `Renderer::get_nearest_intersecting_ball`: one ball against
the running `(result, t_min)` state (`t_min` starts at `f32::MAX`). -/
def nearest_ball_step (m : MathOps) (origin direction : Vec3)
    (state : Option Ball × F) (ball : Ball) : Option Ball × F :=
  let center_adj := origin - ball.pos
  let a : F := (direction.len m) * (direction.len m)
  let b : F := (center_adj * direction) * 2
  let c : F := (center_adj.len m) * (center_adj.len m) - ball.rad * ball.rad
  let d : F := b * b - 4 * a * c
  if d < 0 then
    state
  else if d = 0 then
    let t := -b / 2 * a
    if t < state.2 ∧ 1 ≤ t then (some ball, t) else state
  else
    let t1 := (-b + m.sq d) / (2 * a)
    let t2 := (-b - m.sq d) / (2 * a)
    if (t1 < state.2 ∧ 1 ≤ t1) ∨ (t2 < state.2 ∧ 1 ≤ t2) then
      let t := min t1 t2
      if 1 ≤ t then (some ball, t) else state
    else
      state

/-- `Renderer::get_nearest_intersecting_ball` from `src/renderer.rs`. -/
def get_nearest_intersecting_ball (m : MathOps) (balls : List Ball)
    (origin direction : Vec3) : Option (Ball × Vec3) :=
  let s := balls.foldl (nearest_ball_step m origin direction) (none, F32_MAX)
  match s.1 with
  | some ball => some (ball, origin + direction * s.2)
  | none => none

/-- Inner loop body of `Renderer::get_nearest_intersecting_triangle`: one
resolved face of `object` against the running `(result, t_min)` state. -/
def nearest_triangle_face_step (m : MathOps) (origin direction : Vec3)
    (object : VertexObject) (state : Option (VertexObject × TriangleFace × Vec3) × F)
    (face : TriangleFace) : Option (VertexObject × TriangleFace × Vec3) × F :=
  let v0 := face.1 + object.pos
  let v1 := face.2.1 + object.pos
  let v2 := face.2.2 + object.pos
  let n := get_triangle_normal (v0, v1, v2)
  if |(n * direction : F)| < 1 / 1000 then
    state
  else
    let d : F := (n * v0) * (-1 : F)
    let t : F := -((n * origin : F) + d) / (n * direction : F)
    if t < 1 then
      state
    else if t < state.2 then
      let p := origin + direction * t
      let i0 := n.cross_product (v1 - v0)
      if (i0 * (p - v0) : F) < 0 then
        state
      else
        let i1 := n.cross_product (v2 - v1)
        if (i1 * (p - v1) : F) < 0 then
          state
        else
          let i2 := n.cross_product (v0 - v2)
          if (i2 * (p - v2) : F) < 0 then
            state
          else
            (some (object, face, p), t)
    else
      state

/-- `Renderer::get_nearest_intersecting_triangle` from `src/renderer.rs`. -/
def get_nearest_intersecting_triangle (m : MathOps) (objects : List VertexObject)
    (origin direction : Vec3) : Option (VertexObject × TriangleFace × Vec3) :=
  (objects.foldl
    (fun st object =>
      object.iter_faces.foldl (nearest_triangle_face_step m origin direction object) st)
    (none, F32_MAX)).1

/-- Running diffuse/specular accumulators of `get_light_color` (six `usize`
sums). -/
structure LightAcc where
  dr : ℕ
  dg : ℕ
  db : ℕ
  sr : ℕ
  sg : ℕ
  sb : ℕ
deriving DecidableEq, Repr, Inhabited

/-- Loop body of `Renderer::get_light_color` for one light: the shadow test,
then the diffuse term, then the specular term.  `sn` is the already
normalized surface normal; `as usize` casts become `Nat.floor`. -/
def light_step (m : MathOps) (world : World) (camera_pos obj_pos : Vec3)
    (mat : Material) (hit_location sn : Vec3) (acc : LightAcc) (light : Light) :
    LightAcc :=
  if !(is_in_shadow m world hit_location (light.pos - obj_pos)) then
    let p_to_light_normal := (light.pos - obj_pos).normalized m
    let dot_product : F := p_to_light_normal * sn
    if 0 < dot_product then
      let distance_to_light := (light.pos - obj_pos).len m
      let d_sq := distance_to_light * distance_to_light
      let acc1 : LightAcc :=
        { acc with
          dr := acc.dr
            + ⌊dot_product * mat.diffuse_constant * light.diffuse_intensity.r / d_sq⌋₊
          dg := acc.dg
            + ⌊dot_product * mat.diffuse_constant * light.diffuse_intensity.g / d_sq⌋₊
          db := acc.db
            + ⌊dot_product * mat.diffuse_constant * light.diffuse_intensity.b / d_sq⌋₊ }
      let reflectance_vector := ((sn * (2 : F) * dot_product) - p_to_light_normal).normalized m
      let view_vector := (camera_pos - obj_pos).normalized m
      let dot_product_view : F := reflectance_vector * view_vector
      let specular_factor := m.powf dot_product_view mat.shine
      if 0 ≤ dot_product_view then
        { acc1 with
          sr := acc1.sr
            + ⌊light.specular_intensity.r * mat.specular_constant * specular_factor / d_sq⌋₊
          sg := acc1.sg
            + ⌊light.specular_intensity.g * mat.specular_constant * specular_factor / d_sq⌋₊
          sb := acc1.sb
            + ⌊light.specular_intensity.b * mat.specular_constant * specular_factor / d_sq⌋₊ }
      else
        acc1
    else
      acc
  else
    acc

/-- `Renderer::get_light_color` from `src/renderer.rs`, for an object given
by its `Object::pos()` and `Object::material()` views. -/
def get_light_color (m : MathOps) (obj_pos : Vec3) (mat : Material) (world : World)
    (camera_pos hit_location surface_normal : Vec3) : RGBA8 :=
  let sn := surface_normal.normalized m
  let acc := world.lights.foldl
    (light_step m world camera_pos obj_pos mat hit_location sn) default
  let r := mat.ambient_constant.r / 3 + acc.dr / 3 + acc.sr / 3
  let g := mat.ambient_constant.g / 3 + acc.dg / 3 + acc.sg / 3
  let b := mat.ambient_constant.b / 3 + acc.db / 3 + acc.sb / 3
  { r := min r 255, g := min g 255, b := min b 255, a := 255 }

/-- `src/renderer.rs`: `MultithreadingMethod`. -/
inductive MultithreadingMethod where
  | None : MultithreadingMethod
  | Rayon : MultithreadingMethod
  | Crossbeam : MultithreadingMethod
deriving DecidableEq, Repr

/-- `src/renderer.rs`: `Renderer`. -/
structure Renderer where
  grayscale : Bool
  multithreading_method : MultithreadingMethod
deriving DecidableEq, Repr

/-- `Renderer::render_pixel` from `src/renderer.rs`.  The `hit` /
`ball_closer` flag logic is the four-way match on the two nearest hits. -/
def render_pixel (m : MathOps) (r : Renderer) (pixel_index : ℕ) (camera : Camera)
    (world : World) : RGBA8 :=
  let pixel_ray_direction := calculate_pixel_ray camera pixel_index
  let closest_ball :=
    get_nearest_intersecting_ball m world.balls camera.pos pixel_ray_direction
  let closest_triangle :=
    get_nearest_intersecting_triangle m world.vertex_objects camera.pos
      pixel_ray_direction
  let rgba :=
    match closest_ball, closest_triangle with
    | some (ball, pos_hit_ball), some (vertex_object, face, pos_hit_triangle) =>
      if (camera.pos - pos_hit_ball).len m ≤ (camera.pos - pos_hit_triangle).len m then
        get_light_color m ball.pos ball.material world camera.pos pos_hit_ball
          ((pos_hit_ball - ball.pos).normalized m)
      else
        get_light_color m vertex_object.pos vertex_object.material world camera.pos
          pos_hit_triangle (get_triangle_normal face)
    | some (ball, pos_hit_ball), none =>
      get_light_color m ball.pos ball.material world camera.pos pos_hit_ball
        ((pos_hit_ball - ball.pos).normalized m)
    | none, some (vertex_object, face, pos_hit_triangle) =>
      get_light_color m vertex_object.pos vertex_object.material world camera.pos
        pos_hit_triangle (get_triangle_normal face)
    | none, none => world.color
  apply_filters r.grayscale rgba

/-- Sequential arm of `Renderer::render_world`: each 4-byte pixel chunk `i`
is overwritten with `render_pixel i`.  The buffer is modelled at pixel
granularity (its byte length is `4 *` its length here). -/
def render_world_none (m : MathOps) (r : Renderer) (world : World) (camera : Camera)
    (frame_buffer : List RGBA8) : List RGBA8 :=
  (List.range frame_buffer.length).map fun i => render_pixel m r i camera world

/-- Rayon arm of `Renderer::render_world`: a parallel map over the same
enumerated 4-byte chunks; each task writes only its own chunk, so the
contents are the same indexed map. -/
def render_world_rayon (m : MathOps) (r : Renderer) (world : World) (camera : Camera)
    (frame_buffer : List RGBA8) : List RGBA8 :=
  (List.range frame_buffer.length).map fun i => render_pixel m r i camera world

/-- The Crossbeam arm's loop over `chunks_mut(4 * pixels_per_thread)`: each
chunk of `k + 1` pixels is rendered with the accumulated index offset, and
the offset advances by the chunk's size (the last chunk may be shorter). -/
def crossbeamChunks (g : ℕ → RGBA8) (k : ℕ) : List RGBA8 → ℕ → List RGBA8
  | [], _ => []
  | x :: xs, offset =>
    let chunk_size := min (k + 1) (x :: xs).length
    ((List.range chunk_size).map fun i => g (i + offset))
      ++ crossbeamChunks g k ((x :: xs).drop (k + 1)) (offset + chunk_size)
termination_by l _ => l.length
decreasing_by
  simp only [List.length_drop, List.length_cons]
  omega

/-- Crossbeam arm of `Renderer::render_world`: `pixels_per_thread` is
`pixel_count / cpu_count`; when it is zero `chunks_mut(0)` panics in Rust,
modelled as `none`. -/
def render_world_crossbeam (m : MathOps) (r : Renderer) (world : World)
    (camera : Camera) (cpu_count : ℕ) (frame_buffer : List RGBA8) :
    Option (List RGBA8) :=
  let pixel_count := frame_buffer.length
  match pixel_count / cpu_count with
  | 0 => none
  | k + 1 =>
    some (crossbeamChunks (fun i => render_pixel m r i camera world) k frame_buffer 0)

/-- `Renderer::render_world`: dispatch on the configured strategy
(`cpu_count` stands for `num_cpus::get()`). -/
def render_world (m : MathOps) (r : Renderer) (world : World) (camera : Camera)
    (cpu_count : ℕ) (frame_buffer : List RGBA8) : Option (List RGBA8) :=
  match r.multithreading_method with
  | .None => some (render_world_none m r world camera frame_buffer)
  | .Rayon => some (render_world_rayon m r world camera frame_buffer)
  | .Crossbeam => render_world_crossbeam m r world camera cpu_count frame_buffer

/-- Modelled from the spec's words in §4.3 (for comparison with the code):
the per-channel diffuse contribution
`max(0, N·L) * diffuseConstant * lightDiffuseIntensity / distanceSquared`
with `L` the unit vector from the HIT POINT to the light and
`distanceSquared` the squared distance from the HIT POINT to the light. -/
def spec_diffuse_contribution (m : MathOps) (hit_location surface_normal : Vec3)
    (diffuse_constant : F) (light_pos : Vec3) (intensity : F) : F :=
  let L := (light_pos - hit_location).normalized m
  let dist := (light_pos - hit_location).len m
  max 0 ((surface_normal * L : F)) * diffuse_constant * intensity / (dist * dist)

/-- §4.4's bilinear interpolation of the four image-plane corners, used to
state which plane point a pixel's ray passes through. -/
def bilinear_point (ip : ImagePlane) (alpha beta : F) : Vec3 :=
  (ip.top_left * (1 - alpha) + ip.top_right * alpha) * (1 - beta)
    + (ip.bottom_left * (1 - alpha) + ip.bottom_right * alpha) * beta

deriving instance DecidableEq for Except

instance (m : MathOps) (c : Camera) : Decidable (c.planeConsistent m) :=
  inferInstanceAs (Decidable (c.image_plane = c.get_image_plane m))

/-- Square-root table for the concrete witnesses below: exact (non-negative
and squaring back to the argument) on every value those computations feed to
`MathOps.sq`, `0` elsewhere. -/
def sqTable : F → F := fun x =>
  if x = 1 then 1
  else if x = 4 then 2
  else if x = 25 then 5
  else if x = 25 / 9 then 5 / 3
  else if x = 36 / 25 then 6 / 5
  else if x = 16 / 9 then 4 / 3
  else if x = 25 / 16 then 5 / 4
  else 0

/-- Concrete oracle for witnesses and counterexamples: the square root is
`sqTable`; the remaining operations are irrelevant constants. -/
def mW : MathOps :=
  { sq := sqTable
    cos := fun _ => 0
    sin := fun _ => 0
    tan := fun _ => 0
    asin := fun _ => 0
    atan2 := fun _ _ => 0
    powf := fun _ _ => 0 }

/-- Unit ball at `(2,0,0)`: from the origin along `(1,0,0)` its hit
parameters are `1` and `3`. -/
def ballC1 : Ball := ⟨vec3 2 0 0, 1, default⟩

/-- Unit ball at `(3/4,0,0)`: the ray from `(0,1,0)` along `(2,0,0)` is
tangent to it (discriminant exactly `0`), touching at parameter `3/8`. -/
def ballC3 : Ball := ⟨vec3 (3 / 4) 0 0, 1, default⟩

/-- Unit ball at `(5,0,0)`: from the origin along `(1,0,0)` its hit
parameters are `4` and `6`, both beyond `t = 1`. -/
def shadowBall : Ball := ⟨vec3 5 0 0, 1, default⟩

/-- Scene containing only `shadowBall`. -/
def worldC2 : World := ⟨[], [shadowBall], [], default⟩

/-- Material with diffuse constant `10` and no specular response. -/
def matC6 : Material :=
  { ambient_constant := default, diffuse_constant := 10, specular_constant := 0
    shine := 2 }

/-- Unit ball at the origin carrying `matC6`; the shading hit point under
study is `(1,0,0)` on its surface. -/
def ballC6 : Ball := ⟨vec3 0 0 0, 1, matC6⟩

/-- Light at `(1,4/3,0)`: distance `5/3` from the ball's center but `4/3`
from the hit point `(1,0,0)`, straight above it. -/
def lightC6 : Light := ⟨vec3 1 (4 / 3) 0, ⟨10, 10, 10⟩, ⟨0, 0, 0⟩⟩

/-- Scene with `ballC6` and `lightC6` only. -/
def worldC6 : World := ⟨[], [ballC6], [lightC6], default⟩

/-- A genuine 90°-FOV camera at the origin looking down `-z` with a 2×2
resolution; the four stored corners are the exact image plane of that pose
(aspect ratio 1, plane at distance 1). -/
def camC8 : Camera :=
  { pos := vec3 0 0 0
    field_of_view_horizontal := PI / 2
    view_direction := vec3 0 0 (-1)
    image_plane :=
      { top_left := vec3 (-1) 1 (-1)
        top_right := vec3 1 1 (-1)
        bottom_right := vec3 1 (-1) (-1)
        bottom_left := vec3 (-1) (-1) (-1) }
    resolution := ⟨2, 2⟩ }

/-- The camera produced by `Camera::new` at concrete witness inputs. -/
def c0W : Camera :=
  ((Camera.new mW (vec3 0 0 0) (vec3 1 0 0) 90 ⟨2, 2⟩).toOption).getD default

/-- Renderer configured for the Crossbeam strategy, no grayscale. -/
def rendW : Renderer := ⟨false, .Crossbeam⟩

/-- The empty scene. -/
def worldEmpty : World := ⟨[], [], [], default⟩

/-- A five-pixel frame buffer (so two threads get chunks of sizes 2, 2, 1). -/
def buf5 : List RGBA8 := [default, default, default, default, default]

/- Unfolding lemmas for the `Vec3` instances, used to evaluate the model on
concrete inputs and to reduce geometric goals to component arithmetic. -/

@[simp]
theorem Vec3.add_def (a b : Vec3) : a + b = vec3 (a.x + b.x) (a.y + b.y) (a.z + b.z) := rfl

@[simp]
theorem Vec3.sub_def (a b : Vec3) : a - b = vec3 (a.x - b.x) (a.y - b.y) (a.z - b.z) := rfl

@[simp]
theorem Vec3.smul_def (v : Vec3) (r : F) : v * r = vec3 (r * v.x) (r * v.y) (r * v.z) := rfl

@[simp]
theorem Vec3.dot_def (a b : Vec3) : (a * b : F) = a.x * b.x + a.y * b.y + a.z * b.z := rfl

@[simp]
theorem vec3_x (x y z : F) : (vec3 x y z).x = x := rfl

@[simp]
theorem vec3_y (x y z : F) : (vec3 x y z).y = y := rfl

@[simp]
theorem vec3_z (x y z : F) : (vec3 x y z).z = z := rfl

/-- C9 (amended): the grayscale filter is stable from the second application
on — applying it three times equals applying it twice (it is *not*
idempotent after one application; see the counterexample). -/
theorem apply_filters_third_eq_second (grayscale : Bool) (rgba : RGBA8) :
    apply_filters grayscale (apply_filters grayscale (apply_filters grayscale rgba)) =
      apply_filters grayscale (apply_filters grayscale rgba) := by
  cases grayscale with
  | false => rfl
  | true =>
    obtain ⟨r, g, b, a⟩ := rgba
    simp only [apply_filters, if_true, RGBA8.mk.injEq]
    generalize (r / 3 + g / 3 + b / 3 : ℕ) = q
    have h1 : q / 3 + q / 3 + q / 3 = 3 * (q / 3) := by ring
    have h2 : 3 * (q / 3) / 3 = q / 3 := Nat.mul_div_cancel_left _ (by norm_num)
    refine ⟨?_, ?_, ?_, trivial⟩ <;> rw [h1, h2, h1]

/-- C9 counterexample: at the pixel `(3,0,0,255)` one application gives
`(1,1,1,255)` but a second application lowers it to `(0,0,0,255)`, so the
grayscale filter is not idempotent. -/
theorem grayscale_not_idempotent_at_3_0_0 :
    apply_filters true (apply_filters true ⟨3, 0, 0, 255⟩)
        ≠ apply_filters true ⟨3, 0, 0, 255⟩
    ∧ apply_filters true ⟨3, 0, 0, 255⟩ = ⟨1, 1, 1, 255⟩
    ∧ apply_filters true (apply_filters true ⟨3, 0, 0, 255⟩) = ⟨0, 0, 0, 255⟩ := by
  decide

/-- C10: when either FOV setter returns an error the camera state it leaves
behind is exactly the input camera — every field unchanged. -/
theorem set_fov_error_leaves_camera_unchanged (m : MathOps) (c : Camera) (fov : F)
    (e : CameraSettingError) :
    ((c.set_field_of_view_horizontal m fov).1 = .error e →
      (c.set_field_of_view_horizontal m fov).2 = c)
    ∧ ((c.set_field_of_view_horizontal_deg m fov).1 = .error e →
      (c.set_field_of_view_horizontal_deg m fov).2 = c) := by
  have base : ∀ f : F, (c.set_field_of_view_horizontal m f).1 = .error e →
      (c.set_field_of_view_horizontal m f).2 = c := by
    intro f h
    by_cases hc : PI ≤ f ∨ f ≤ 0
    · simp [Camera.set_field_of_view_horizontal, hc]
    · simp [Camera.set_field_of_view_horizontal, hc] at h
  refine ⟨base fov, ?_⟩
  intro h
  exact base (fov * (PI / 180)) h

/-- C3: at the tangent configuration (ball at `(3/4,0,0)` radius `1`, ray
origin `(0,1,0)`, direction `(2,0,0)`, so `a = 4`, `b = -3`, discriminant
`0`), the code returns `-b/2 * a = 6` although the tangent parameter
`-b/(2a)` is `3/8`: the branch multiplies by `a` instead of dividing. -/
theorem tangent_branch_returns_wrong_parameter :
    ((vec3 2 0 0).len mW) * ((vec3 2 0 0).len mW) = 4
    ∧ ((((vec3 0 1 0) - ballC3.pos) * (vec3 2 0 0) : F)) * 2 = -3
    ∧ find_ray_ball_intersection mW ballC3 (vec3 0 1 0) (vec3 2 0 0) RealRange.All
        = some 6
    ∧ (-(-3 : F)) / (2 * 4) = 3 / 8
    ∧ ((6 : F) ≠ 3 / 8) := by
  norm_num [find_ray_ball_intersection, Vec3.len, mW, sqTable, RealRange.contains, ballC3]

/-- C1 (amended): in the two-root case (`d > 0`, `a > 0`),
`find_ray_ball_intersection` returns the *smaller* root whenever at least
one of the two roots lies in the allowed range — in particular it does
return the smaller root when only the larger one is in range, so the
returned root can lie outside the range — and returns `none` when neither
root is in range. -/
theorem find_ray_ball_two_roots_returns_smaller (m : MathOps) (ball : Ball)
    (origin direction : Vec3) (range : RealRange) (a b c d : F)
    (ha : a = (direction.len m) * (direction.len m))
    (hb : b = (((origin - ball.pos) * direction : F)) * 2)
    (hc : c = ((origin - ball.pos).len m) * ((origin - ball.pos).len m)
      - ball.rad * ball.rad)
    (hd : d = b * b - 4 * a * c)
    (hdpos : 0 < d) (hapos : 0 < a)
    (hroot : m.sq d * m.sq d = d) (hnn : 0 ≤ m.sq d) :
    find_ray_ball_intersection m ball origin direction range =
      if range.contains ((-b + m.sq d) / (2 * a))
          || range.contains ((-b - m.sq d) / (2 * a)) then
        some ((-b - m.sq d) / (2 * a))
      else
        none := by
  have h2a : (0 : F) < 2 * a := by linarith
  have hle : (-b - m.sq d) / (2 * a) ≤ (-b + m.sq d) / (2 * a) := by
    rw [div_le_div_iff h2a h2a]
    nlinarith [mul_nonneg hnn h2a.le]
  subst ha hb hc hd
  simp only [find_ray_ball_intersection]
  rw [if_neg (not_lt.2 hdpos.le), if_neg hdpos.ne', min_eq_right hle]

/-- C1 witness: ball at `(2,0,0)` radius `1`, ray from the origin along
`(1,0,0)` (roots `1` and `3`), allowed range `t > 2`: only the larger root
`3` is in range, and the function returns the smaller root `1`. -/
theorem find_ray_ball_two_roots_returns_smaller_witness :
    find_ray_ball_intersection mW ballC1 (vec3 0 0 0) (vec3 1 0 0)
      (RealRange.LargerThan 2) = some 1 := by
  rw [find_ray_ball_two_roots_returns_smaller mW ballC1 (vec3 0 0 0) (vec3 1 0 0)
    (RealRange.LargerThan 2) 1 (-4) 3 4
    (by norm_num [Vec3.len, mW, sqTable])
    (by norm_num [ballC1])
    (by norm_num [Vec3.len, mW, sqTable, ballC1])
    (by norm_num) (by norm_num) (by norm_num)
    (by norm_num [mW, sqTable]) (by norm_num [mW, sqTable])]
  norm_num [mW, sqTable, RealRange.contains]

/-- C1 counterexample: in that same configuration the returned root `1`
does **not** lie in the allowed range `t > 2` (and the claim's "use the
larger root `3`" is not what is returned). -/
theorem find_ray_ball_returns_out_of_range_root :
    find_ray_ball_intersection mW ballC1 (vec3 0 0 0) (vec3 1 0 0)
        (RealRange.LargerThan 2) = some 1
    ∧ (RealRange.LargerThan 2).contains 1 = false
    ∧ (RealRange.LargerThan 2).contains 3 = true := by
  norm_num [find_ray_ball_intersection, Vec3.len, mW, sqTable, RealRange.contains, ballC1]

/-- C2 (amended): the shadow test's allowed range is `t > 0.0001` with no
upper bound: any ball intersection of the normalized shadow ray — even one
at or beyond the light's distance (`t ≥ 1`) — makes `is_in_shadow` report
`true`. -/
theorem is_in_shadow_counts_hits_beyond_light (m : MathOps) (world : World)
    (origin direction : Vec3) (ball : Ball) (t : F)
    (hmem : ball ∈ world.balls)
    (hhit : find_ray_ball_intersection m ball origin (direction.normalized m)
        (RealRange.LargerThan SHADOW_EPSILON) = some t)
    (hbeyond : 1 ≤ t) :
    is_in_shadow m world origin direction = true := by
  unfold is_in_shadow
  simp only [Bool.or_eq_true, List.any_eq_true]
  exact Or.inl ⟨ball, hmem, by simp [hhit]⟩

/-- C2 witness: the unit ball at `(5,0,0)` intersects the shadow ray from
the origin along `(1,0,0)` at `t = 4 ≥ 1`, and the point is reported
shadowed. -/
theorem is_in_shadow_counts_hits_beyond_light_witness :
    is_in_shadow mW worldC2 (vec3 0 0 0) (vec3 1 0 0) = true :=
  is_in_shadow_counts_hits_beyond_light mW worldC2 (vec3 0 0 0) (vec3 1 0 0)
    shadowBall 4 (by simp [worldC2])
    (by norm_num [find_ray_ball_intersection, Vec3.len, Vec3.normalized, mW, sqTable,
      RealRange.contains, SHADOW_EPSILON, shadowBall])
    (by norm_num)

/-- C2 counterexample: the same scene has **no** intersection with
parameter strictly between the epsilon and `1` (the claim's occluder
range), yet `is_in_shadow` reports `true`; the hit it accepted is at
`t = 4`, beyond the light. -/
theorem shadow_reported_despite_no_hit_before_light :
    is_in_shadow mW worldC2 (vec3 0 0 0) (vec3 1 0 0) = true
    ∧ find_ray_ball_intersection mW shadowBall (vec3 0 0 0)
        ((vec3 1 0 0).normalized mW) (RealRange.Open SHADOW_EPSILON 1) = none
    ∧ find_ray_ball_intersection mW shadowBall (vec3 0 0 0)
        ((vec3 1 0 0).normalized mW) (RealRange.LargerThan SHADOW_EPSILON) = some 4 := by
  norm_num [is_in_shadow, worldC2, shadowBall, find_ray_ball_intersection, Vec3.len,
    Vec3.normalized, mW, sqTable, RealRange.contains, SHADOW_EPSILON]

/-- C6 (amended): for a light that passes the shadow test, the per-channel
diffuse contribution `get_light_color` adds is the truncation of
`max(0, N·L) * diffuseConstant * lightDiffuseIntensity / distanceSquared`
where `L` is the unit vector from the **object's position** (`Object::pos()`,
the sphere's center / mesh origin) to the light and `distanceSquared` the
squared distance from the **object's position** to the light — not from the
hit point. -/
theorem light_step_diffuse_uses_object_position (m : MathOps) (world : World)
    (camera_pos obj_pos : Vec3) (mat : Material) (hit_location sn : Vec3)
    (acc : LightAcc) (light : Light)
    (hsh : is_in_shadow m world hit_location (light.pos - obj_pos) = false) :
    (light_step m world camera_pos obj_pos mat hit_location sn acc light).dr
        = acc.dr + ⌊max 0 (((light.pos - obj_pos).normalized m * sn : F))
            * mat.diffuse_constant * light.diffuse_intensity.r
            / (((light.pos - obj_pos).len m) * ((light.pos - obj_pos).len m))⌋₊
    ∧ (light_step m world camera_pos obj_pos mat hit_location sn acc light).dg
        = acc.dg + ⌊max 0 (((light.pos - obj_pos).normalized m * sn : F))
            * mat.diffuse_constant * light.diffuse_intensity.g
            / (((light.pos - obj_pos).len m) * ((light.pos - obj_pos).len m))⌋₊
    ∧ (light_step m world camera_pos obj_pos mat hit_location sn acc light).db
        = acc.db + ⌊max 0 (((light.pos - obj_pos).normalized m * sn : F))
            * mat.diffuse_constant * light.diffuse_intensity.b
            / (((light.pos - obj_pos).len m) * ((light.pos - obj_pos).len m))⌋₊ := by
  unfold light_step
  rw [hsh]
  simp only [Bool.not_false, if_true]
  by_cases hdot : (0 : F) < ((light.pos - obj_pos).normalized m * sn : F)
  · rw [if_pos hdot, max_eq_right hdot.le]
    refine ⟨?_, ?_, ?_⟩ <;> split <;> rfl
  · rw [if_neg hdot, max_eq_left (le_of_not_lt hdot)]
    norm_num

/-- C6 witness: the concrete unshadowed scene `worldC6` instantiates the
object-position form of the diffuse term. -/
theorem light_step_diffuse_uses_object_position_witness :
    (light_step mW worldC6 (vec3 0 0 5) (vec3 0 0 0) matC6 (vec3 1 0 0) (vec3 1 0 0)
        default lightC6).dr
      = (default : LightAcc).dr
        + ⌊max 0 (((lightC6.pos - vec3 0 0 0).normalized mW * vec3 1 0 0 : F))
            * matC6.diffuse_constant * lightC6.diffuse_intensity.r
            / (((lightC6.pos - vec3 0 0 0).len mW) * ((lightC6.pos - vec3 0 0 0).len mW))⌋₊
    ∧ (light_step mW worldC6 (vec3 0 0 5) (vec3 0 0 0) matC6 (vec3 1 0 0) (vec3 1 0 0)
        default lightC6).dg
      = (default : LightAcc).dg
        + ⌊max 0 (((lightC6.pos - vec3 0 0 0).normalized mW * vec3 1 0 0 : F))
            * matC6.diffuse_constant * lightC6.diffuse_intensity.g
            / (((lightC6.pos - vec3 0 0 0).len mW) * ((lightC6.pos - vec3 0 0 0).len mW))⌋₊
    ∧ (light_step mW worldC6 (vec3 0 0 5) (vec3 0 0 0) matC6 (vec3 1 0 0) (vec3 1 0 0)
        default lightC6).db
      = (default : LightAcc).db
        + ⌊max 0 (((lightC6.pos - vec3 0 0 0).normalized mW * vec3 1 0 0 : F))
            * matC6.diffuse_constant * lightC6.diffuse_intensity.b
            / (((lightC6.pos - vec3 0 0 0).len mW) * ((lightC6.pos - vec3 0 0 0).len mW))⌋₊ :=
  light_step_diffuse_uses_object_position mW worldC6 (vec3 0 0 5) (vec3 0 0 0) matC6
    (vec3 1 0 0) (vec3 1 0 0) default lightC6
    (by norm_num [is_in_shadow, worldC6, ballC6, matC6, lightC6, find_ray_ball_intersection,
      Vec3.len, Vec3.normalized, mW, sqTable, RealRange.contains, SHADOW_EPSILON])

/-- C6 counterexample: in `worldC6` the light is not occluded; the hit point
is `(1,0,0)` on the unit ball centered at the origin and the light sits at
`(1,4/3,0)` straight above the hit point.  The code adds `21` to the red
diffuse sum (using the direction and distance from the ball's **center**),
while the claim's hit-point formula gives `0` (the light direction from the
hit point is perpendicular to the surface normal there). -/
theorem diffuse_term_measured_from_object_position :
    is_in_shadow mW worldC6 (vec3 1 0 0) (lightC6.pos - vec3 0 0 0) = false
    ∧ (light_step mW worldC6 (vec3 0 0 5) (vec3 0 0 0) matC6 (vec3 1 0 0) (vec3 1 0 0)
        default lightC6).dr = 21
    ∧ spec_diffuse_contribution mW (vec3 1 0 0) (vec3 1 0 0) matC6.diffuse_constant
        lightC6.pos lightC6.diffuse_intensity.r = 0
    ∧ ((21 : ℕ) ≠ 0) := by
  refine ⟨?_, ?_, ?_, by norm_num⟩
  · norm_num [is_in_shadow, worldC6, ballC6, matC6, lightC6, find_ray_ball_intersection,
      Vec3.len, Vec3.normalized, mW, sqTable, RealRange.contains, SHADOW_EPSILON]
  · have hf : (⌊(108 / 5 : ℚ)⌋₊ : ℕ) = 21 := by
      rw [Nat.floor_eq_iff (by norm_num)]
      norm_num
    norm_num [light_step, is_in_shadow, worldC6, ballC6, matC6, lightC6,
      find_ray_ball_intersection, Vec3.len, Vec3.normalized, mW, sqTable,
      RealRange.contains, SHADOW_EPSILON]
    rw [hf]
    decide
  · norm_num [spec_diffuse_contribution, lightC6, matC6, Vec3.len, Vec3.normalized,
      mW, sqTable]

/-- C7: all three FOV entry points reject with a descriptive `InvalidFOV`
error exactly when the requested value lies outside the open interval —
`(0°, 180°)` for the degree entry points, `(0, PI)` (the `f32` π constant)
for the radian setter — and succeed otherwise; nothing is clamped. -/
theorem fov_validation (m : MathOps) (pos dir : Vec3) (res : Resolution)
    (c : Camera) (fov : F) :
    (Camera.new m pos dir fov res = .error (.InvalidFOV fov) ↔ (fov ≤ 0 ∨ 180 ≤ fov))
    ∧ ((∃ cam, Camera.new m pos dir fov res = .ok cam) ↔ (0 < fov ∧ fov < 180))
    ∧ ((c.set_field_of_view_horizontal m fov).1 = .error (.InvalidFOV fov)
        ↔ (fov ≤ 0 ∨ PI ≤ fov))
    ∧ ((c.set_field_of_view_horizontal m fov).1 = .ok () ↔ (0 < fov ∧ fov < PI))
    ∧ ((c.set_field_of_view_horizontal_deg m fov).1
          = .error (.InvalidFOV (fov * (PI / 180))) ↔ (fov ≤ 0 ∨ 180 ≤ fov))
    ∧ ((c.set_field_of_view_horizontal_deg m fov).1 = .ok () ↔ (0 < fov ∧ fov < 180)) := by
  have hdeg0 : fov * (PI / 180) ≤ 0 ↔ fov ≤ 0 := by
    simp only [PI]
    constructor <;> intro h <;> nlinarith
  have hdegPI : PI ≤ fov * (PI / 180) ↔ 180 ≤ fov := by
    simp only [PI]
    constructor <;> intro h <;> nlinarith
  refine ⟨?_, ?_, ?_, ?_, ?_, ?_⟩
  · by_cases hc : (180 : F) ≤ fov ∨ fov ≤ 0
    · simp only [Camera.new, if_pos hc]
      simp
      tauto
    · simp only [Camera.new, if_neg hc]
      push_neg at hc
      simp
      exact ⟨hc.2, hc.1⟩
  · by_cases hc : (180 : F) ≤ fov ∨ fov ≤ 0
    · simp only [Camera.new, if_pos hc]
      simp
      intro h1
      rcases hc with h | h
      · exact h
      · linarith
    · simp only [Camera.new, if_neg hc]
      push_neg at hc
      simp
      exact ⟨hc.2, hc.1⟩
  · by_cases hc : PI ≤ fov ∨ fov ≤ 0
    · simp only [Camera.set_field_of_view_horizontal, if_pos hc]
      simp
      tauto
    · simp only [Camera.set_field_of_view_horizontal, if_neg hc]
      push_neg at hc
      simp
      exact ⟨hc.2, hc.1⟩
  · by_cases hc : PI ≤ fov ∨ fov ≤ 0
    · simp only [Camera.set_field_of_view_horizontal, if_pos hc]
      simp
      intro h1
      rcases hc with h | h
      · exact h
      · linarith
    · simp only [Camera.set_field_of_view_horizontal, if_neg hc]
      push_neg at hc
      simp
      exact ⟨hc.2, hc.1⟩
  · by_cases hc : PI ≤ fov * (PI / 180) ∨ fov * (PI / 180) ≤ 0
    · simp only [Camera.set_field_of_view_horizontal_deg,
        Camera.set_field_of_view_horizontal, if_pos hc]
      simp
      rcases hc with h | h
      · exact Or.inr (hdegPI.mp h)
      · exact Or.inl (hdeg0.mp h)
    · simp only [Camera.set_field_of_view_horizontal_deg,
        Camera.set_field_of_view_horizontal, if_neg hc]
      push_neg at hc
      simp
      constructor
      · by_contra hno
        exact absurd (hdeg0.mpr (le_of_not_lt hno)) (by linarith [hc.2])
      · by_contra hno
        exact absurd (hdegPI.mpr (le_of_not_lt hno)) (by linarith [hc.1])
  · by_cases hc : PI ≤ fov * (PI / 180) ∨ fov * (PI / 180) ≤ 0
    · simp only [Camera.set_field_of_view_horizontal_deg,
        Camera.set_field_of_view_horizontal, if_pos hc]
      simp
      intro h1
      rcases hc with h | h
      · exact hdegPI.mp h
      · exact absurd (hdeg0.mp h) (by linarith)
    · simp only [Camera.set_field_of_view_horizontal_deg,
        Camera.set_field_of_view_horizontal, if_neg hc]
      push_neg at hc
      simp
      constructor
      · by_contra hno
        exact absurd (hdeg0.mpr (le_of_not_lt hno)) (by linarith [hc.2])
      · by_contra hno
        exact absurd (hdegPI.mpr (le_of_not_lt hno)) (by linarith [hc.1])

/-- C8 (amended): the ray for pixel index `0` uses `alpha = beta = 0` and
passes exactly through the image plane's top-left corner (the interpolated
plane point, reached at ray parameter `1`, is that corner); the ray for the
last pixel index `w*h - 1` passes through the bilinear interpolant at
`alpha = (w-1)/w`, `beta = (h-1)/h` — the top-left corner of the last pixel's
cell — which in general is **not** the bottom-right corner. -/
theorem pixel_ray_corner_interpolation (camera : Camera)
    (hw : 0 < camera.resolution.w) (hh : 0 < camera.resolution.h) :
    camera.pos + calculate_pixel_ray camera 0 = camera.image_plane.top_left
    ∧ camera.pos + calculate_pixel_ray camera
          (camera.resolution.w * camera.resolution.h - 1)
        = bilinear_point camera.image_plane
            (((camera.resolution.w - 1 : ℕ) : F) / (camera.resolution.w : F))
            (((camera.resolution.h - 1 : ℕ) : F) / (camera.resolution.h : F)) := by
  obtain ⟨cpos, cfov, cdir, cplane, W, H⟩ := camera
  simp only at hw hh
  obtain ⟨w1, rfl⟩ : ∃ w1, W = w1 + 1 := ⟨W - 1, by omega⟩
  obtain ⟨h1, rfl⟩ : ∃ h1, H = h1 + 1 := ⟨H - 1, by omega⟩
  have hWH : (w1 + 1) * (h1 + 1) - 1 = (w1 + 1) * h1 + w1 := by
    have hx : (w1 + 1) * (h1 + 1) = (w1 + 1) * h1 + (w1 + 1) := by ring
    omega
  have hmod : ((w1 + 1) * (h1 + 1) - 1) % (w1 + 1) = w1 := by
    rw [hWH, Nat.mul_add_mod]
    exact Nat.mod_eq_of_lt (by omega)
  have hdiv : ((w1 + 1) * (h1 + 1) - 1) / (w1 + 1) = h1 := by
    rw [hWH, Nat.mul_add_div (by omega), Nat.div_eq_of_lt (by omega)]
    omega
  constructor
  · simp [calculate_pixel_ray, bilinear_point]
    ext <;> simp
  · simp [calculate_pixel_ray, bilinear_point, hmod, hdiv]

/-- C8 witness: the concrete 2×2 camera `camC8` instantiates both corner
facts. -/
theorem pixel_ray_corner_interpolation_witness :
    camC8.pos + calculate_pixel_ray camC8 0 = camC8.image_plane.top_left
    ∧ camC8.pos + calculate_pixel_ray camC8
          (camC8.resolution.w * camC8.resolution.h - 1)
        = bilinear_point camC8.image_plane
            (((camC8.resolution.w - 1 : ℕ) : F) / (camC8.resolution.w : F))
            (((camC8.resolution.h - 1 : ℕ) : F) / (camC8.resolution.h : F)) :=
  pixel_ray_corner_interpolation camC8 (by norm_num [camC8]) (by norm_num [camC8])

/-- C8 counterexample: for the genuine 90°-FOV 2×2 camera `camC8` the last
pixel's ray interpolates to `(0,0,-1)` (`alpha = beta = 1/2`, the plane's
center), which is not the bottom-right corner `(1,-1,-1)`. -/
theorem last_pixel_misses_bottom_right_corner :
    camC8.pos + calculate_pixel_ray camC8 3 = vec3 0 0 (-1)
    ∧ vec3 0 0 (-1) ≠ camC8.image_plane.bottom_right := by
  constructor
  · norm_num [camC8, calculate_pixel_ray]
  · norm_num [camC8, vec3, Vec3.mk.injEq]

/-- Deriving the image plane never reads the stored plane field. -/
theorem get_image_plane_plane_irrelevant (m : MathOps) (p : Vec3) (fov : F) (d : Vec3)
    (pl pl' : ImagePlane) (res : Resolution) :
    Camera.get_image_plane m ⟨p, fov, d, pl, res⟩
      = Camera.get_image_plane m ⟨p, fov, d, pl', res⟩ := rfl

/-- `set_view_direction` re-derives the plane, so its result satisfies the
invariant unconditionally. -/
theorem set_view_direction_planeConsistent (m : MathOps) (c : Camera) (d : Vec3) :
    (c.set_view_direction m d).planeConsistent m := rfl

/-- The camera position enters `get_image_plane` only in the final corner
sums, so deriving after a translation shifts all four corners. -/
theorem get_image_plane_translate (m : MathOps) (c : Camera) (v : Vec3)
    (pl : ImagePlane) :
    Camera.get_image_plane m
        ⟨c.pos + v, c.field_of_view_horizontal, c.view_direction, pl, c.resolution⟩
      = { top_left := (c.get_image_plane m).top_left + v
          top_right := (c.get_image_plane m).top_right + v
          bottom_right := (c.get_image_plane m).bottom_right + v
          bottom_left := (c.get_image_plane m).bottom_left + v } := by
  simp only [Camera.get_image_plane]
  ext <;> simp <;> ring

/-- A camera built by `Camera::new` satisfies the invariant. -/
theorem camera_new_planeConsistent (m : MathOps) (p d : Vec3) (fov : F)
    (res : Resolution) (c0 : Camera) (h : Camera.new m p d fov res = .ok c0) :
    c0.planeConsistent m := by
  by_cases hc : (180 : F) ≤ fov ∨ fov ≤ 0
  · simp [Camera.new, hc] at h
  · simp only [Camera.new, if_neg hc] at h
    injection h with h2
    subst h2
    exact rfl

/-- Every mutator preserves the invariant (a rejected FOV leaves the camera
unchanged; the others re-derive the plane; translation shifts it). -/
theorem applyCameraOp_preserves_planeConsistent (m : MathOps) (c : Camera)
    (op : CameraOp) (h : c.planeConsistent m) :
    (applyCameraOp m c op).planeConsistent m := by
  cases op with
  | translate v =>
    unfold Camera.planeConsistent at h ⊢
    unfold applyCameraOp Camera.translate
    rw [h, get_image_plane_translate]
  | look_at p => exact set_view_direction_planeConsistent m c (p - c.pos)
  | set_view_direction d => exact set_view_direction_planeConsistent m c d
  | set_fov f =>
    by_cases hc : PI ≤ f ∨ f ≤ 0
    · simpa [applyCameraOp, Camera.set_field_of_view_horizontal, hc] using h
    · unfold Camera.planeConsistent
      simp only [applyCameraOp, Camera.set_field_of_view_horizontal, if_neg hc]
      exact get_image_plane_plane_irrelevant m c.pos f c.view_direction _ _ c.resolution
  | set_fov_deg f =>
    by_cases hc : PI ≤ f * (PI / 180) ∨ f * (PI / 180) ≤ 0
    · simpa [applyCameraOp, Camera.set_field_of_view_horizontal_deg,
        Camera.set_field_of_view_horizontal, hc] using h
    · unfold Camera.planeConsistent
      simp only [applyCameraOp, Camera.set_field_of_view_horizontal_deg,
        Camera.set_field_of_view_horizontal, if_neg hc]
      exact get_image_plane_plane_irrelevant m c.pos (f * (PI / 180)) c.view_direction
        _ _ c.resolution

/-- C4: starting from any camera `Camera::new` accepts, after any sequence
of `translate`, `look_at`, `set_view_direction` and FOV-setter calls the
stored image plane equals exactly what `get_image_plane` derives from the
camera's current position, view direction, FOV and resolution. -/
theorem camera_plane_invariant_after_ops (m : MathOps) (p d : Vec3) (fov : F)
    (res : Resolution) (c0 : Camera) (ops : List CameraOp)
    (h : Camera.new m p d fov res = .ok c0) :
    (ops.foldl (applyCameraOp m) c0).planeConsistent m := by
  have h0 : c0.planeConsistent m := camera_new_planeConsistent m p d fov res c0 h
  clear h
  induction ops generalizing c0 with
  | nil => exact h0
  | cons op rest ih =>
    exact ih (applyCameraOp m c0 op) (applyCameraOp_preserves_planeConsistent m c0 op h0)

/-- `Camera::new` succeeds at the witness inputs and returns `c0W`. -/
theorem c0W_ok : Camera.new mW (vec3 0 0 0) (vec3 1 0 0) 90 ⟨2, 2⟩ = .ok c0W := by
  have hc : ¬ ((180 : F) ≤ 90 ∨ (90 : F) ≤ 0) := by norm_num
  unfold c0W
  simp only [Camera.new, if_neg hc, Except.toOption, Option.getD]

/-- C4 witness: the invariant after a concrete mutator sequence (a
translation, a rejected radian FOV of `5`, a 60° FOV change, a look-at). -/
theorem camera_plane_invariant_after_ops_witness :
    (([CameraOp.translate (vec3 1 2 3), CameraOp.set_fov 5, CameraOp.set_fov_deg 60,
        CameraOp.look_at (vec3 0 0 0)]).foldl (applyCameraOp mW) c0W).planeConsistent mW :=
  camera_plane_invariant_after_ops mW (vec3 0 0 0) (vec3 1 0 0) 90 ⟨2, 2⟩ c0W
    [CameraOp.translate (vec3 1 2 3), CameraOp.set_fov 5, CameraOp.set_fov_deg 60,
      CameraOp.look_at (vec3 0 0 0)] c0W_ok

/-- The Crossbeam chunk loop renders exactly the pixels `offset`,
`offset + 1`, … in order: one chunk of `k+1` pixels plus the recursion on
the rest. -/
theorem crossbeamChunks_eq (g : ℕ → RGBA8) (k : ℕ) :
    ∀ (n : ℕ) (l : List RGBA8), l.length ≤ n → ∀ (offset : ℕ),
      crossbeamChunks g k l offset
        = (List.range l.length).map fun i => g (i + offset) := by
  intro n
  induction n with
  | zero =>
    intro l hl offset
    have hnil : l = [] := List.length_eq_zero.mp (Nat.le_zero.mp hl)
    subst hnil
    simp [crossbeamChunks]
  | succ n ih =>
    intro l hl offset
    match l with
    | [] => simp [crossbeamChunks]
    | x :: xs =>
      have hdl : ((x :: xs).drop (k + 1)).length ≤ n := by
        rw [List.length_drop]
        simp only [List.length_cons] at hl
        simp only [List.length_cons]
        omega
      rw [crossbeamChunks, ih _ hdl]
      simp only [List.length_drop]
      have hmin : min (k + 1) (x :: xs).length ≤ (x :: xs).length := min_le_right _ _
      conv_rhs => rw [show (x :: xs).length
          = min (k + 1) (x :: xs).length
            + ((x :: xs).length - min (k + 1) (x :: xs).length) by omega,
        List.range_add]
      rw [List.map_append, List.map_map]
      have hlen2 : (x :: xs).length - (k + 1)
          = (x :: xs).length - min (k + 1) (x :: xs).length := by omega
      rw [hlen2]
      congr 1
      apply List.map_congr_left
      intro i hi
      simp only [Function.comp_apply]
      congr 1
      omega

/-- C5: the three dispatch strategies of `render_world` fill the frame
buffer identically: the Crossbeam fixed-partition rendering equals the
sequential rendering (provided every thread's chunk is non-empty, i.e.
`pixels_per_thread > 0` — otherwise Rust's `chunks_mut(0)` panics), and the
Rayon work-stealing map is the same indexed map as the sequential loop. -/
theorem render_strategies_byte_identical (m : MathOps) (r : Renderer) (world : World)
    (camera : Camera) (cpu_count : ℕ) (frame_buffer : List RGBA8)
    (hppt : 0 < frame_buffer.length / cpu_count) :
    render_world_crossbeam m r world camera cpu_count frame_buffer
        = some (render_world_none m r world camera frame_buffer)
    ∧ render_world_rayon m r world camera frame_buffer
        = render_world_none m r world camera frame_buffer := by
  refine ⟨?_, rfl⟩
  obtain ⟨k, hk⟩ : ∃ k, frame_buffer.length / cpu_count = k + 1 :=
    ⟨frame_buffer.length / cpu_count - 1, by omega⟩
  simp only [render_world_crossbeam, hk]
  rw [crossbeamChunks_eq _ k frame_buffer.length frame_buffer le_rfl 0]
  simp [render_world_none]

/-- C5 witness: two CPUs and a five-pixel buffer over the empty scene
(chunks of sizes 2, 2 and 1). -/
theorem render_strategies_byte_identical_witness :
    render_world_crossbeam mW rendW worldEmpty camC8 2 buf5
        = some (render_world_none mW rendW worldEmpty camC8 buf5)
    ∧ render_world_rayon mW rendW worldEmpty camC8 buf5
        = render_world_none mW rendW worldEmpty camC8 buf5 :=
  render_strategies_byte_identical mW rendW worldEmpty camC8 2 buf5
    (by norm_num [buf5])

/-- C5 counterexample: with fewer pixels than CPUs (here a one-pixel buffer
on two CPUs) `pixels_per_thread` is `0`, so the Crossbeam arm panics in
`chunks_mut(0)` (modelled as `none`) and produces no buffer contents at
all, while the sequential strategy does — the three strategies are not
byte-identical on every `width*height*4` buffer. -/
theorem crossbeam_panics_with_fewer_pixels_than_cpus :
    render_world_crossbeam mW rendW worldEmpty camC8 2 [(default : RGBA8)] = none
    ∧ render_world_crossbeam mW rendW worldEmpty camC8 2 [(default : RGBA8)]
        ≠ some (render_world_none mW rendW worldEmpty camC8 [(default : RGBA8)]) := by
  have h : render_world_crossbeam mW rendW worldEmpty camC8 2 [(default : RGBA8)]
      = none := rfl
  rw [h]
  simp
